import Mathlib

/-!
# A verification development for the MCP gateway core

Shallow embedding in Lean 4 of the gateway's core services — the port
allocator (`src/services/port-manager.ts`), the process supervisor
(`process-manager`), the stdio↔HTTP adapter (`stdio-adapter`), the
WebSocket relay (`websocket-proxy`) and the request router
(`request-router`) — together with theorems about the properties the
specification states for them.

Conventions used throughout:
* JavaScript `Map` objects become association lists (`List (key × value)`);
  `Map.set` updates in place or appends, `Map.get` returns an `Option`.
* JavaScript strings become Lean `String` or `List Char` (the latter where
  character-level induction is needed); `string.length` is the number of
  UTF-16 code units, which coincides with the character count on the ASCII
  data the gateway handles.
* Asynchronous calls become pure functions whose environment inputs (the
  OS port probe, a child process's spawn outcome, the bytes a child writes
  on stdout) are explicit parameters.
* `Date` fields (`allocatedAt`, `startedAt`, …) and the logger are dropped:
  no control flow of the modelled functions reads them.  `lastActivity` is
  kept where a claim mentions it, as an abstract `Nat` clock value.
-/

namespace MCPGateway

/-! ## Association-list maps mirroring JavaScript `Map` semantics -/

/-- `Map.get(k)`: the value stored at `k`, if any. -/
def mapGet {α β : Type} [BEq α] (m : List (α × β)) (k : α) : Option β :=
  (m.find? (fun p => p.1 == k)).map (fun p => p.2)

/-- `Map.has(k)`. -/
def mapHas {α β : Type} [BEq α] (m : List (α × β)) (k : α) : Bool :=
  (m.find? (fun p => p.1 == k)).isSome

/-- `Map.set(k, v)`: overwrite the entry for `k` when present, else append. -/
def mapSet {α β : Type} [BEq α] (m : List (α × β)) (k : α) (v : β) : List (α × β) :=
  if mapHas m k then m.map (fun p => if p.1 == k then (k, v) else p)
  else m ++ [(k, v)]

/-- `Map.delete(k)`. -/
def mapDel {α β : Type} [BEq α] (m : List (α × β)) (k : α) : List (α × β) :=
  m.filter (fun p => !(p.1 == k))

/-- Every entry of `mapSet m k v` is either the new `(k, v)` entry or an
entry of `m`. -/
theorem mem_mapSet {α β : Type} [BEq α] {m : List (α × β)} {k : α} {v : β}
    {p : α × β} (h : p ∈ mapSet m k v) : p = (k, v) ∨ p ∈ m := by
  unfold mapSet at h
  split at h
  · rcases List.mem_map.mp h with ⟨q, hq, hfq⟩
    by_cases hk : q.1 == k
    · left; simp [hk] at hfq; exact hfq.symm
    · right; simp [hk] at hfq; exact hfq ▸ hq
  · rcases List.mem_append.mp h with h' | h'
    · exact Or.inr h'
    · left; simpa using h'

/-- A successful `mapGet` returns a value stored in the list. -/
theorem mapGet_mem {α β : Type} [BEq α] {m : List (α × β)} {k : α} {v : β}
    (h : mapGet m k = some v) : ∃ k', (k', v) ∈ m := by
  unfold mapGet at h
  rcases Option.map_eq_some'.mp h with ⟨q, hq, hv⟩
  refine ⟨q.1, ?_⟩
  have hm := List.mem_of_find?_eq_some hq
  have : q = (q.1, v) := by
    cases q with
    | mk a b => simpa using congrArg (fun x => (a, x)) hv
  exact this ▸ hm

/-! ## Port allocator (`src/services/port-manager.ts`)

`PortManager` keeps `allocations : Map<number, PortAllocation>` and
`nameToPort : Map<string, number>`.  We record only the `serverName` field
of `PortAllocation` (its `allocatedAt` date and `reserved` flag are not read
by `allocatePort`).  The asynchronous OS probe `isPortAvailable` becomes an
explicit oracle `probe : Nat → Bool`. -/

structure PortManagerConfig where
  startPort : Nat
  endPort : Nat
deriving DecidableEq, Repr

structure PortManagerState where
  /-- `allocations`: port → serverName. -/
  allocations : List (Nat × String)
  /-- `nameToPort`: serverName → port. -/
  nameToPort : List (String × Nat)
deriving DecidableEq, Repr

/-- The private `doAllocatePort`: store both directions of the mapping. -/
def doAllocatePort (s : PortManagerState) (serverName : String) (port : Nat) :
    PortManagerState × Nat :=
  ({ allocations := mapSet s.allocations port serverName,
     nameToPort := mapSet s.nameToPort serverName port }, port)

/-- The scan loop of `allocatePort`: the first port of the list that is not
in the allocation map and that the OS probe reports free. -/
def scanForPort (s : PortManagerState) (probe : Nat → Bool) : List Nat → Option Nat
  | [] => none
  | p :: rest =>
    if !mapHas s.allocations p && probe p then some p else scanForPort s probe rest

/-- The ports `startPort, startPort+1, …, endPort`. -/
def portRange (cfg : PortManagerConfig) : List Nat :=
  List.range' cfg.startPort (cfg.endPort + 1 - cfg.startPort)

/-- The fallback of `allocatePort` once the server has no existing port:
try the preferred port, else scan the range.  Mirrors the source exactly:
the preferred branch tests only JS truthiness of `preferredPort`, the OS
probe, and the range bounds — it does NOT consult `allocations`. -/
def allocatePortFresh (cfg : PortManagerConfig) (s : PortManagerState)
    (probe : Nat → Bool) (serverName : String) (preferredPort : Option Nat) :
    Option (PortManagerState × Nat) :=
  let scanned :=
    match scanForPort s probe (portRange cfg) with
    | some p => some (doAllocatePort s serverName p)
    | none => none
  match preferredPort with
  | some p =>
    if p ≠ 0 ∧ probe p then
      if cfg.startPort ≤ p ∧ p ≤ cfg.endPort then some (doAllocatePort s serverName p)
      else scanned
    else scanned
  | none => scanned

/-- `allocatePort(serverName, preferredPort?)`.  `none` models the
`No available ports` rejection. -/
def allocatePort (cfg : PortManagerConfig) (s : PortManagerState)
    (probe : Nat → Bool) (serverName : String) (preferredPort : Option Nat) :
    Option (PortManagerState × Nat) :=
  match mapGet s.nameToPort serverName with
  | some existingPort =>
    if existingPort ≠ 0 then some (s, existingPort)
    else allocatePortFresh cfg s probe serverName preferredPort
  | none => allocatePortFresh cfg s probe serverName preferredPort

/-- `getPortForServer`. -/
def getPortForServer (s : PortManagerState) (serverName : String) : Option Nat :=
  mapGet s.nameToPort serverName

/-- `getServerForPort` (`allocations.get(port)?.serverName`). -/
def getServerForPort (s : PortManagerState) (port : Nat) : Option String :=
  mapGet s.allocations port

/-- `releasePort(serverName)`: remove both mappings; `true` iff one existed. -/
def releasePort (s : PortManagerState) (serverName : String) :
    PortManagerState × Bool :=
  match mapGet s.nameToPort serverName with
  | none => (s, false)
  | some port =>
    match mapGet s.allocations port with
    | none => (s, false)
    | some owner =>
      if owner = serverName then
        ({ allocations := mapDel s.allocations port,
           nameToPort := mapDel s.nameToPort serverName }, true)
      else (s, false)

/-- The default range 3001–3099 of the source. -/
def pmDefaultConfig : PortManagerConfig := { startPort := 3001, endPort := 3099 }

/-- The empty allocator state. -/
def pmEmpty : PortManagerState := { allocations := [], nameToPort := [] }

/-- The two-step run refuting the bijection invariant: allocate a port to
`"n1"` by scanning, then allocate the same port to `"n2"` as a preferred
port while the OS probe reports every port free. -/
def pmBrokenRun : Option PortManagerState :=
  match allocatePort pmDefaultConfig pmEmpty (fun _ => true) "n1" none with
  | none => none
  | some (s1, _) =>
    match allocatePort pmDefaultConfig s1 (fun _ => true) "n2" (some 3001) with
    | none => none
    | some (s2, _) => some s2

/-- C1: the claim states that `portForName(n) = p ⇔ nameForPort(p) = n` holds
after any sequence of `allocatePort` calls, including
`allocatePort(n2, preferred)` where `preferred` is already allocated to a
different name `n1` but reported free by the OS probe.  The code violates it
on exactly that input: the preferred-port branch never consults the
`allocations` map (unlike the scan branch), so port 3001 is reassigned to
`"n2"` while `nameToPort` still maps `"n1"` to 3001 — `portForName("n1") =
3001` but `nameForPort(3001) = "n2"`. -/
theorem allocatePort_preferred_overwrites_bijection :
    ∃ s2 : PortManagerState, pmBrokenRun = some s2 ∧
      getPortForServer s2 "n1" = some 3001 ∧
      getServerForPort s2 3001 = some "n2" ∧
      ¬ (getServerForPort s2 3001 = some "n1") := by
  refine ⟨{ allocations := [(3001, "n2")],
            nameToPort := [("n1", 3001), ("n2", 3001)] }, ?_, ?_, ?_, ?_⟩ <;> decide

/-! ## Process supervisor (`ProcessManager`)

`ProcessManager` keeps `processes : Map<string, ProcessInfo>` and
`childProcesses : Map<string, ChildProcess>`.  A child handle is modelled by
its pid.  The asynchronous spawn is summarised by a `SpawnOutcome` chosen by
the environment; each public method becomes one atomic transition whose
effect on the record is exactly the source's (the transient `starting` /
`stopping` assignments inside one call are subsumed by the call's final
state).  `startedAt`, `stoppedAt` and `lastError` are dropped: no branch of
the modelled methods reads them. -/

inductive ProcessState where
  | idle | starting | running | stopping | stopped | failed
deriving DecidableEq, Repr

/-- The fields of `DetectedServer` the supervisor reads.  `isHttp` stands
for `detectedType === ServerType.HTTP`. -/
structure DetectedServer where
  name : String
  isHttp : Bool
  command : Option String
  restart : Bool
deriving DecidableEq, Repr

structure ProcessInfo where
  server : DetectedServer
  state : ProcessState
  pid : Option Nat
  restartCount : Nat
deriving DecidableEq, Repr

structure ProcessManagerState where
  processes : List (String × ProcessInfo)
  /-- `childProcesses`: name → pid of the live child handle. -/
  childProcesses : List (String × Nat)
deriving DecidableEq, Repr

/-- How one `spawnProcess` call resolves.
* `ok pid` — the child spawned and stayed up: the promise resolves.
* `spawnError` — the `error` event fired: the handle is removed, the start
  rejects (the child never had a pid).
* `exitDuringStartup pid` — the child spawned (pid recorded) and exited
  while the record was `starting`: the handle is removed, the start rejects.
* `startupTimeout pid` — the startup timer fired: the child is killed and
  the start rejects; the later `exit` event removes the handle. -/
inductive SpawnOutcome where
  | ok (pid : Nat)
  | spawnError
  | exitDuringStartup (pid : Nat)
  | startupTimeout (pid : Nat)
deriving DecidableEq, Repr

inductive StartResult where
  /-- `startServer` returned early: the record was `running` or `starting`. -/
  | alreadyActive
  /-- The spawn resolved; the record is `running`. -/
  | started
  /-- The spawn threw; the record is `failed`.  The flag records whether the
  auto-restart timer was armed. -/
  | failedStart (restartScheduled : Bool)
deriving DecidableEq, Repr

/-- The auto-restart policy guard, shared verbatim by the two failure sites
of the source (`startServer`'s catch and the `exit` handler): iff
`server.restart && restartCount < maxRestarts`, increment `restartCount`
and arm the timer. -/
def scheduleRestart (maxRestarts : Nat) (info : ProcessInfo) : ProcessInfo × Bool :=
  if info.server.restart ∧ info.restartCount < maxRestarts then
    ({ info with restartCount := info.restartCount + 1 }, true)
  else (info, false)

/-- `startServer(server, port?)`; `port` is dropped (it only flows into the
child environment).  `maxRestarts` is the supervisor's configuration. -/
def startServer (maxRestarts : Nat) (s : ProcessManagerState)
    (server : DetectedServer) (outcome : SpawnOutcome) :
    ProcessManagerState × StartResult :=
  let name := server.name
  let info0 := (mapGet s.processes name).getD
    { server := server, state := .idle, pid := none, restartCount := 0 }
  let s0 : ProcessManagerState := { s with processes := mapSet s.processes name info0 }
  if info0.state = .running ∨ info0.state = .starting then
    (s0, .alreadyActive)
  else
    let info1 := { info0 with state := ProcessState.starting }
    if server.isHttp ∨ server.command = none then
      -- spawnProcess throws before any child exists; the catch marks the
      -- record failed and applies the auto-restart policy.
      let (info2, sched) := scheduleRestart maxRestarts { info1 with state := .failed }
      ({ s0 with processes := mapSet s0.processes name info2 }, .failedStart sched)
    else
      match outcome with
      | .ok pid =>
        let info2 := { info1 with
          pid := if pid = 0 then info1.pid else some pid,
          state := ProcessState.running }
        ({ processes := mapSet s0.processes name info2,
           childProcesses := mapSet s0.childProcesses name pid }, .started)
      | .spawnError =>
        let (info2, sched) := scheduleRestart maxRestarts { info1 with state := .failed }
        ({ processes := mapSet s0.processes name info2,
           childProcesses := mapDel s0.childProcesses name }, .failedStart sched)
      | .exitDuringStartup pid =>
        let info1p := { info1 with pid := if pid = 0 then info1.pid else some pid }
        let (info2, sched) := scheduleRestart maxRestarts { info1p with state := .failed }
        ({ processes := mapSet s0.processes name info2,
           childProcesses := mapDel s0.childProcesses name }, .failedStart sched)
      | .startupTimeout pid =>
        let info1p := { info1 with pid := if pid = 0 then info1.pid else some pid }
        let (info2, sched) := scheduleRestart maxRestarts { info1p with state := .failed }
        ({ processes := mapSet s0.processes name info2,
           childProcesses := mapDel s0.childProcesses name }, .failedStart sched)

/-- The `exit` handler firing outside of startup.  The handle is removed;
if the record was `running` the record becomes `failed` and the auto-restart
policy is applied.  Returns whether a restart was scheduled. -/
def handleChildExit (maxRestarts : Nat) (s : ProcessManagerState) (name : String) :
    ProcessManagerState × Bool :=
  let s1 : ProcessManagerState := { s with childProcesses := mapDel s.childProcesses name }
  match mapGet s.processes name with
  | none => (s1, false)
  | some info =>
    if info.state = .running then
      let (info2, sched) := scheduleRestart maxRestarts { info with state := .failed }
      ({ s1 with processes := mapSet s1.processes name info2 }, sched)
    else (s1, false)

inductive StopResult where
  /-- `stopServer` threw `Server ... is not managed`. -/
  | notManaged
  /-- State was `stopped` or `stopping`: returned with no action. -/
  | alreadyStopped
  /-- No child handle (or no pid): the record was set to `stopped` and the
  call returned. -/
  | noChild
  /-- The child exited within `shutdownTimeout` of the signal. -/
  | stoppedGraceful
  /-- The child had to be `SIGKILL`ed. -/
  | stoppedForced
deriving DecidableEq, Repr

/-- `stopServer(name, signal)`.  `graceful` tells whether the child exits
within `shutdownTimeout` (else the force-kill path runs; both end
`stopped` and drop the handle via the `finally`). -/
def stopServer (s : ProcessManagerState) (name : String) (graceful : Bool) :
    ProcessManagerState × StopResult :=
  match mapGet s.processes name with
  | none => (s, .notManaged)
  | some info =>
    if info.state = .stopped ∨ info.state = .stopping then
      (s, .alreadyStopped)
    else if mapHas s.childProcesses name = false ∨ info.pid = none then
      ({ s with processes := mapSet s.processes name { info with state := .stopped } },
       .noChild)
    else
      ({ processes := mapSet s.processes name { info with state := .stopped },
         childProcesses := mapDel s.childProcesses name },
       if graceful then .stoppedGraceful else .stoppedForced)

/-- `restartServer(name)`: stop when live, reset `restartCount` to 0, then
start again with the same descriptor.  `none` models the
`Server ... is not managed` rejection. -/
def restartServer (maxRestarts : Nat) (s : ProcessManagerState) (name : String)
    (graceful : Bool) (outcome : SpawnOutcome) :
    ProcessManagerState × Option StartResult :=
  match mapGet s.processes name with
  | none => (s, none)
  | some info =>
    let s1 := if info.state = .running ∨ info.state = .starting then
      (stopServer s name graceful).1 else s
    let info1 := (mapGet s1.processes name).getD info
    let s2 : ProcessManagerState :=
      { s1 with processes := mapSet s1.processes name { info1 with restartCount := 0 } }
    let (s3, r) := startServer maxRestarts s2 info1.server outcome
    (s3, some r)

/-- One environment event driving the supervisor. -/
inductive SupervisorEvent where
  | start (server : DetectedServer) (outcome : SpawnOutcome)
  | childExit (name : String)
  | stop (name : String) (graceful : Bool)
  | restart (name : String) (graceful : Bool) (outcome : SpawnOutcome)
deriving DecidableEq, Repr

def supervisorStep (maxRestarts : Nat) (s : ProcessManagerState) :
    SupervisorEvent → ProcessManagerState
  | .start server outcome => (startServer maxRestarts s server outcome).1
  | .childExit name => (handleChildExit maxRestarts s name).1
  | .stop name graceful => (stopServer s name graceful).1
  | .restart name graceful outcome => (restartServer maxRestarts s name graceful outcome).1

/-- The supervisor state after a sequence of events, from the empty state. -/
def supervisorRun (maxRestarts : Nat) (es : List SupervisorEvent) : ProcessManagerState :=
  es.foldl (supervisorStep maxRestarts) { processes := [], childProcesses := [] }

/-! ### Map lemmas used by the supervisor invariants -/

theorem find?_map_update {α β : Type} [BEq α] [LawfulBEq α]
    (l : List (α × β)) (k : α) (v : β) (h : mapHas l k = true) :
    (l.map (fun p => if p.1 == k then (k, v) else p)).find? (fun p => p.1 == k)
      = some (k, v) := by
  induction l with
  | nil => simp [mapHas] at h
  | cons q l ih =>
    by_cases hq : q.1 == k
    · simp [hq]
    · have h' : mapHas l k = true := by
        simpa [mapHas, List.find?_cons, hq] using h
      simpa [hq] using ih h'

theorem find?_append_new {α β : Type} [BEq α] [LawfulBEq α]
    (l : List (α × β)) (k : α) (v : β) (h : mapHas l k = false) :
    (l ++ [(k, v)]).find? (fun p => p.1 == k) = some (k, v) := by
  induction l with
  | nil => simp
  | cons q l ih =>
    have hq : (q.1 == k) = false := by
      by_contra hc
      simp only [Bool.not_eq_false] at hc
      simp [mapHas, List.find?_cons, hc] at h
    have h' : mapHas l k = false := by
      simpa [mapHas, List.find?_cons, hq] using h
    simpa [hq] using ih h'

/-- Looking up the key just written returns the value written. -/
theorem mapGet_mapSet_self {α β : Type} [BEq α] [LawfulBEq α]
    (l : List (α × β)) (k : α) (v : β) : mapGet (mapSet l k v) k = some v := by
  unfold mapGet mapSet
  by_cases h : mapHas l k = true
  · rw [if_pos h, find?_map_update l k v h]; rfl
  · rw [if_neg (by simpa using h),
      find?_append_new l k v (by simpa using Bool.of_not_eq_true h)]
    rfl

/-! ### Supervisor invariants -/

/-- A per-record property holding of every managed record. -/
def ProcInv (P : ProcessInfo → Prop) (l : List (String × ProcessInfo)) : Prop :=
  ∀ p ∈ l, P p.2

theorem procInv_mapSet {P : ProcessInfo → Prop} {l : List (String × ProcessInfo)}
    {name : String} {v : ProcessInfo} (h : ProcInv P l) (hv : P v) :
    ProcInv P (mapSet l name v) := by
  intro p hp
  rcases mem_mapSet hp with rfl | hm
  · exact hv
  · exact h p hm

theorem procInv_get {P : ProcessInfo → Prop} {l : List (String × ProcessInfo)}
    {name : String} {info : ProcessInfo} (h : ProcInv P l)
    (hg : mapGet l name = some info) : P info := by
  rcases mapGet_mem hg with ⟨k', hk⟩
  exact h (k', info) hk

theorem procInv_getD {P : ProcessInfo → Prop} {l : List (String × ProcessInfo)}
    {name : String} {d : ProcessInfo} (h : ProcInv P l) (hd : P d) :
    P ((mapGet l name).getD d) := by
  cases hg : mapGet l name with
  | none => simpa using hd
  | some info => simpa using procInv_get h hg

theorem scheduleRestart_state (m : Nat) (i : ProcessInfo) :
    (scheduleRestart m i).1.state = i.state := by
  unfold scheduleRestart; split <;> rfl

theorem scheduleRestart_pid (m : Nat) (i : ProcessInfo) :
    (scheduleRestart m i).1.pid = i.pid := by
  unfold scheduleRestart; split <;> rfl

theorem scheduleRestart_count (m : Nat) (i : ProcessInfo) (h : i.restartCount ≤ m) :
    (scheduleRestart m i).1.restartCount ≤ m := by
  unfold scheduleRestart
  split
  · next hc => exact hc.2
  · exact h

/-- `pid ≠ ⊥ ⇒ state ≠ idle`: the per-record form of the amended C4
invariant. -/
def PidProp (i : ProcessInfo) : Prop := i.pid.isSome = true → i.state ≠ ProcessState.idle

theorem startServer_pidInv (m : Nat) (s : ProcessManagerState)
    (server : DetectedServer) (outcome : SpawnOutcome)
    (h : ProcInv PidProp s.processes) :
    ProcInv PidProp (startServer m s server outcome).1.processes := by
  have h0 : PidProp ((mapGet s.processes server.name).getD
      { server := server, state := .idle, pid := none, restartCount := 0 }) :=
    procInv_getD h (by intro hp; simp at hp)
  simp only [startServer]
  split
  · exact procInv_mapSet h h0
  · split
    · refine procInv_mapSet (procInv_mapSet h h0) ?_
      intro _
      rw [scheduleRestart_state]
      simp
    · split
      · refine procInv_mapSet (procInv_mapSet h h0) ?_
        intro _; simp
      · refine procInv_mapSet (procInv_mapSet h h0) ?_
        intro _
        rw [scheduleRestart_state]
        simp
      · refine procInv_mapSet (procInv_mapSet h h0) ?_
        intro _
        rw [scheduleRestart_state]
        simp
      · refine procInv_mapSet (procInv_mapSet h h0) ?_
        intro _
        rw [scheduleRestart_state]
        simp

theorem handleChildExit_pidInv (m : Nat) (s : ProcessManagerState) (name : String)
    (h : ProcInv PidProp s.processes) :
    ProcInv PidProp (handleChildExit m s name).1.processes := by
  simp only [handleChildExit]
  split
  · exact h
  · split
    · refine procInv_mapSet h ?_
      intro _
      rw [scheduleRestart_state]
      simp
    · exact h

theorem stopServer_pidInv (s : ProcessManagerState) (name : String) (g : Bool)
    (h : ProcInv PidProp s.processes) :
    ProcInv PidProp (stopServer s name g).1.processes := by
  simp only [stopServer]
  split
  · exact h
  · split
    · exact h
    · split
      · refine procInv_mapSet h ?_
        intro _; simp
      · refine procInv_mapSet h ?_
        intro _; simp

theorem restartServer_pidInv (m : Nat) (s : ProcessManagerState) (name : String)
    (g : Bool) (outcome : SpawnOutcome) (h : ProcInv PidProp s.processes) :
    ProcInv PidProp (restartServer m s name g outcome).1.processes := by
  simp only [restartServer]
  split
  · exact h
  · next info heq =>
    have h1 : ProcInv PidProp (if info.state = .running ∨ info.state = .starting then
        (stopServer s name g).1 else s).processes := by
      split
      · exact stopServer_pidInv s name g h
      · exact h
    have hd : PidProp ((mapGet (if info.state = .running ∨ info.state = .starting then
        (stopServer s name g).1 else s).processes name).getD info) :=
      procInv_getD h1 (procInv_get h heq)
    exact startServer_pidInv m _ _ outcome (procInv_mapSet h1 hd)

theorem supervisorStep_pidInv (m : Nat) (s : ProcessManagerState) (e : SupervisorEvent)
    (h : ProcInv PidProp s.processes) :
    ProcInv PidProp (supervisorStep m s e).processes := by
  cases e with
  | start server outcome => exact startServer_pidInv m s server outcome h
  | childExit name => exact handleChildExit_pidInv m s name h
  | stop name g => exact stopServer_pidInv s name g h
  | restart name g outcome => exact restartServer_pidInv m s name g outcome h

theorem supervisorFoldl_pidInv (m : Nat) (es : List SupervisorEvent) :
    ∀ s : ProcessManagerState, ProcInv PidProp s.processes →
      ProcInv PidProp (es.foldl (supervisorStep m) s).processes := by
  induction es with
  | nil => intro s h; simpa using h
  | cons e es ih =>
    intro s h
    simpa using ih (supervisorStep m s e) (supervisorStep_pidInv m s e h)

/-- `restartCount ≤ maxRestarts`: the per-record form of the C5 bound. -/
def RcProp (m : Nat) (i : ProcessInfo) : Prop := i.restartCount ≤ m

theorem startServer_rcInv (m : Nat) (s : ProcessManagerState)
    (server : DetectedServer) (outcome : SpawnOutcome)
    (h : ProcInv (RcProp m) s.processes) :
    ProcInv (RcProp m) (startServer m s server outcome).1.processes := by
  have h0 : RcProp m ((mapGet s.processes server.name).getD
      { server := server, state := .idle, pid := none, restartCount := 0 }) :=
    procInv_getD h (Nat.zero_le m)
  simp only [startServer]
  split
  · exact procInv_mapSet h h0
  · split
    · exact procInv_mapSet (procInv_mapSet h h0) (scheduleRestart_count m _ h0)
    · split
      · exact procInv_mapSet (procInv_mapSet h h0) h0
      · exact procInv_mapSet (procInv_mapSet h h0) (scheduleRestart_count m _ h0)
      · exact procInv_mapSet (procInv_mapSet h h0) (scheduleRestart_count m _ h0)
      · exact procInv_mapSet (procInv_mapSet h h0) (scheduleRestart_count m _ h0)

theorem handleChildExit_rcInv (m : Nat) (s : ProcessManagerState) (name : String)
    (h : ProcInv (RcProp m) s.processes) :
    ProcInv (RcProp m) (handleChildExit m s name).1.processes := by
  simp only [handleChildExit]
  split
  · exact h
  · next info heq =>
    have hin : RcProp m info := procInv_get h heq
    split
    · exact procInv_mapSet h (scheduleRestart_count m _ hin)
    · exact h

theorem stopServer_rcInv (s : ProcessManagerState) (name : String) (g : Bool)
    (h : ProcInv (RcProp m) s.processes) :
    ProcInv (RcProp m) (stopServer s name g).1.processes := by
  simp only [stopServer]
  split
  · exact h
  · next info heq =>
    have hin : RcProp m info := procInv_get h heq
    split
    · exact h
    · split
      · exact procInv_mapSet h hin
      · exact procInv_mapSet h hin

theorem restartServer_rcInv (m : Nat) (s : ProcessManagerState) (name : String)
    (g : Bool) (outcome : SpawnOutcome) (h : ProcInv (RcProp m) s.processes) :
    ProcInv (RcProp m) (restartServer m s name g outcome).1.processes := by
  simp only [restartServer]
  split
  · exact h
  · next info heq =>
    have h1 : ProcInv (RcProp m) (if info.state = .running ∨ info.state = .starting then
        (stopServer s name g).1 else s).processes := by
      split
      · exact stopServer_rcInv s name g h
      · exact h
    exact startServer_rcInv m _ _ outcome (procInv_mapSet h1 (Nat.zero_le m))

theorem supervisorStep_rcInv (m : Nat) (s : ProcessManagerState) (e : SupervisorEvent)
    (h : ProcInv (RcProp m) s.processes) :
    ProcInv (RcProp m) (supervisorStep m s e).processes := by
  cases e with
  | start server outcome => exact startServer_rcInv m s server outcome h
  | childExit name => exact handleChildExit_rcInv m s name h
  | stop name g => exact stopServer_rcInv s name g h
  | restart name g outcome => exact restartServer_rcInv m s name g outcome h

theorem supervisorFoldl_rcInv (m : Nat) (es : List SupervisorEvent) :
    ∀ s : ProcessManagerState, ProcInv (RcProp m) s.processes →
      ProcInv (RcProp m) (es.foldl (supervisorStep m) s).processes := by
  induction es with
  | nil => intro s h; simpa using h
  | cons e es ih =>
    intro s h
    simpa using ih (supervisorStep m s e) (supervisorStep_rcInv m s e h)

/-! ### C4, C5, C6: claim theorems about the supervisor -/

/-- A stdio descriptor whose child crashes after running (used by the C4
counterexample and witnesses). -/
def crashedServer : DetectedServer :=
  { name := "srv", isHttp := false, command := some "node", restart := false }

/-- The record left by a successful start followed by a crash. -/
def crashedInfo : ProcessInfo :=
  { server := crashedServer, state := .failed, pid := some 42, restartCount := 0 }

/-- C4 counterexample: the claim says a record in state `stopped` or `failed`
has no pid.  After `startServer` (spawn ok, pid 42) and an `exit` while
`running`, the record is `failed` with `pid = some 42`: the source never
clears `processInfo.pid`. -/
theorem crashed_record_keeps_pid :
    mapGet (supervisorRun 3 [SupervisorEvent.start crashedServer (.ok 42),
      SupervisorEvent.childExit "srv"]).processes "srv" = some crashedInfo
    ∧ crashedInfo.pid = some 42
    ∧ ¬ (crashedInfo.state = ProcessState.starting ∨
         crashedInfo.state = ProcessState.running ∨
         crashedInfo.state = ProcessState.stopping) :=
  ⟨by decide, by decide, by decide⟩

/-- C4 amended: `pid` is assigned only inside a start and never cleared, so
a record with a pid can be `stopped` or `failed` — but never `idle`: in
every reachable supervisor state, a record whose `pid` is set has left
`idle`. -/
theorem pid_implies_not_idle (maxRestarts : Nat) (es : List SupervisorEvent) :
    ∀ p ∈ (supervisorRun maxRestarts es).processes,
      p.2.pid.isSome = true → p.2.state ≠ ProcessState.idle :=
  supervisorFoldl_pidInv maxRestarts es _ (fun p hp => absurd hp (List.not_mem_nil p))

/-- Witness for `pid_implies_not_idle` at the record of
`crashed_record_keeps_pid`'s run. -/
theorem pid_implies_not_idle_witness :
    (("srv", crashedInfo) : String × ProcessInfo).2.state ≠ ProcessState.idle :=
  pid_implies_not_idle 3 [SupervisorEvent.start crashedServer (.ok 42),
    SupervisorEvent.childExit "srv"] ("srv", crashedInfo) (by decide) (by decide)

/-- C5: bounded auto-restart.
1. In every reachable supervisor state every record has
   `restartCount ≤ maxRestarts`.
2. The `exit`-handler site: for a `running` record, a restart is scheduled
   iff `descriptor.restart ∧ restartCount < maxRestarts`, and exactly then
   `restartCount` is incremented (the record turning `failed`).
3. The `startServer`-catch site (shown for a spawn error): the start
   reports a scheduled restart under exactly the same guard.
4. Manual `restartServer` resets `restartCount` to zero before starting:
   a restart whose spawn succeeds leaves the record `running` with
   `restartCount = 0`. -/
theorem restartCount_bounded_and_policy :
    (∀ (m : Nat) (es : List SupervisorEvent),
      ∀ p ∈ (supervisorRun m es).processes, p.2.restartCount ≤ m)
    ∧ (∀ (m : Nat) (s : ProcessManagerState) (name : String) (info : ProcessInfo),
        mapGet s.processes name = some info → info.state = .running →
        (((handleChildExit m s name).2 = true ↔
            (info.server.restart = true ∧ info.restartCount < m))
         ∧ mapGet (handleChildExit m s name).1.processes name
             = some { info with
                      state := .failed,
                      restartCount := if info.server.restart = true ∧ info.restartCount < m
                        then info.restartCount + 1 else info.restartCount }))
    ∧ (∀ (m : Nat) (s : ProcessManagerState) (server : DetectedServer)
        (info : ProcessInfo), mapGet s.processes server.name = some info →
        ¬ (info.state = .running ∨ info.state = .starting) →
        server.isHttp = false → server.command ≠ none →
        ((startServer m s server .spawnError).2 = .failedStart true ↔
          (info.server.restart = true ∧ info.restartCount < m)))
    ∧ (∀ (m : Nat) (s : ProcessManagerState) (name : String) (g : Bool)
        (pid : Nat) (info : ProcessInfo), mapGet s.processes name = some info →
        info.server.name = name → pid ≠ 0 →
        info.server.isHttp = false → info.server.command ≠ none →
        mapGet (restartServer m s name g (.ok pid)).1.processes name
          = some { server := info.server, state := .running, pid := some pid,
                   restartCount := 0 }) := by
  refine ⟨?_, ?_, ?_, ?_⟩
  · intro m es
    exact supervisorFoldl_rcInv m es _ (fun p hp => absurd hp (List.not_mem_nil p))
  · intro m s name info hg hr
    simp only [handleChildExit, hg, hr, if_pos, scheduleRestart]
    constructor
    · split
      · next hc => simpa using hc
      · next hc => simpa using hc
    · split
      · exact mapGet_mapSet_self ..
      · exact mapGet_mapSet_self ..
  · intro m s server info hg hactive hhttp hcmd
    simp only [startServer, hg, Option.getD_some]
    rw [if_neg hactive, if_neg (by simp [hhttp, hcmd])]
    simp only [scheduleRestart]
    split
    · next hc => simpa using hc
    · next hc => simpa using hc
  · intro m s name g pid info hg hname hpid hhttp hcmd
    simp only [restartServer, hg]
    by_cases hlive : info.state = .running ∨ info.state = .starting
    · rw [if_pos hlive]
      have hs1 : mapGet (stopServer s name g).1.processes name
          = some { info with state := ProcessState.stopped } := by
        simp only [stopServer, hg]
        rw [if_neg (by rcases hlive with h | h <;> simp [h])]
        split
        · exact mapGet_mapSet_self ..
        · exact mapGet_mapSet_self ..
      rw [hs1, Option.getD_some]
      simp only [startServer, hname, mapGet_mapSet_self, Option.getD_some]
      rw [if_neg (by simp), if_neg (by simp [hhttp, hcmd]), if_neg hpid]
      exact mapGet_mapSet_self ..
    · rw [if_neg hlive, hg, Option.getD_some]
      simp only [startServer, hname, mapGet_mapSet_self, Option.getD_some]
      rw [if_neg (by simpa using hlive), if_neg (by simp [hhttp, hcmd]), if_neg hpid]
      exact mapGet_mapSet_self ..

/-- A descriptor that runs with `restart := true` (C5 witness). -/
def restartingServer : DetectedServer :=
  { name := "r", isHttp := false, command := some "node", restart := true }

/-- The record after one crash of `restartingServer` under `maxRestarts = 1`. -/
def restartedInfo : ProcessInfo :=
  { server := restartingServer, state := .failed, pid := some 7, restartCount := 1 }

/-- Witness for `restartCount_bounded_and_policy`: the bound applied to the
record of a concrete crash run. -/
theorem restartCount_bounded_and_policy_witness :
    (("r", restartedInfo) : String × ProcessInfo).2.restartCount ≤ 1 :=
  restartCount_bounded_and_policy.1 1
    [SupervisorEvent.start restartingServer (.ok 7), SupervisorEvent.childExit "r"]
    ("r", restartedInfo) (by decide)

/-- A descriptor whose spawn fails immediately (C6 counterexample). -/
def neverSpawned : DetectedServer :=
  { name := "f", isHttp := false, command := some "node", restart := false }

/-- C6 counterexample: the claim says `stopServer` on a record with no child
process succeeds "without further effect".  It does return without error
(`noChild`), but it mutates the record: a `failed` record whose spawn never
produced a child is rewritten to `stopped`. -/
theorem stopServer_noChild_not_noop :
    (stopServer (supervisorRun 3 [SupervisorEvent.start neverSpawned .spawnError])
        "f" true).2 = StopResult.noChild
    ∧ mapGet (supervisorRun 3 [SupervisorEvent.start neverSpawned .spawnError]).processes
        "f" = some { server := neverSpawned, state := .failed, pid := none,
                     restartCount := 0 }
    ∧ mapGet (stopServer (supervisorRun 3
        [SupervisorEvent.start neverSpawned .spawnError]) "f" true).1.processes
        "f" = some { server := neverSpawned, state := .stopped, pid := none,
                     restartCount := 0 }
    ∧ (stopServer (supervisorRun 3 [SupervisorEvent.start neverSpawned .spawnError])
        "f" true).1 ≠ supervisorRun 3 [SupervisorEvent.start neverSpawned .spawnError] :=
  ⟨by decide, by decide, by decide, by decide⟩

/-- C6 amended: `stopServer` returns without error whenever the record's
state is `stopped`/`stopping` (a strict no-op) or there is no child process
(no handle, or no pid); in the latter case it is not effect-free — it sets
the record's state to `stopped`. -/
theorem stopServer_no_error_cases :
    (∀ (s : ProcessManagerState) (name : String) (g : Bool) (info : ProcessInfo),
      mapGet s.processes name = some info →
      (info.state = .stopped ∨ info.state = .stopping) →
      stopServer s name g = (s, .alreadyStopped))
    ∧ (∀ (s : ProcessManagerState) (name : String) (g : Bool) (info : ProcessInfo),
      mapGet s.processes name = some info →
      ¬ (info.state = .stopped ∨ info.state = .stopping) →
      (mapHas s.childProcesses name = false ∨ info.pid = none) →
      stopServer s name g =
        ({ s with processes := mapSet s.processes name { info with state := .stopped } },
         .noChild)) := by
  constructor
  · intro s name g info hg hstate
    simp only [stopServer, hg]
    rw [if_pos hstate]
  · intro s name g info hg hstate hchild
    simp only [stopServer, hg]
    rw [if_neg hstate, if_pos hchild]

/-- An already-stopped record (C6 witness input). -/
def stoppedStateW : ProcessManagerState :=
  { processes := [("f", { server := neverSpawned, state := .stopped, pid := none,
                          restartCount := 0 })],
    childProcesses := [] }

/-- Witness for `stopServer_no_error_cases`: stopping an already-stopped
record is an error-free no-op. -/
theorem stopServer_no_error_cases_witness :
    stopServer stoppedStateW "f" true = (stoppedStateW, .alreadyStopped) :=
  stopServer_no_error_cases.1 stoppedStateW "f" true
    { server := neverSpawned, state := .stopped, pid := none, restartCount := 0 }
    (by decide) (by decide)

/-! ## Stdio↔HTTP adapter (`StdioHttpAdapter`)

The adapter's request validators, body collection, request pipeline and
stdio round-trip.  JS `string.toUpperCase()` / `toLowerCase()` are modelled
on ASCII (the only characters on which the validators' comparisons can
match). -/

/-- `'<'` (written via its code point to keep source text plain). -/
def ltChar : Char := Char.ofNat 60
/-- `'>'`. -/
def gtChar : Char := Char.ofNat 62
/-- `'"'`. -/
def dquoteChar : Char := Char.ofNat 34
/-- `'\x27'`, the single quote. -/
def squoteChar : Char := Char.ofNat 39

def asciiUpperChar (c : Char) : Char :=
  if 'a' ≤ c ∧ c ≤ 'z' then Char.ofNat (c.toNat - 32) else c

def asciiLowerChar (c : Char) : Char :=
  if 'A' ≤ c ∧ c ≤ 'Z' then Char.ofNat (c.toNat + 32) else c

/-- `method.toUpperCase()` on ASCII. -/
def jsToUpperCase (s : String) : String := String.mk (s.toList.map asciiUpperChar)

/-- `key.toLowerCase()` on ASCII. -/
def jsToLowerCase (s : String) : String := String.mk (s.toList.map asciiLowerChar)

/-- The adapter's method allowlist. -/
def allowedMethods : List String :=
  ["GET", "POST", "PUT", "DELETE", "PATCH", "HEAD", "OPTIONS"]

/-- `validateHttpMethod`: `none` models the throw.  `!method` (absent or
empty string) throws; otherwise the uppercased method must be allowlisted. -/
def validateHttpMethod (method : Option String) : Option String :=
  match method with
  | none => none
  | some m =>
    if m = "" then none
    else
      let upperMethod := jsToUpperCase m
      if allowedMethods.contains upperMethod then some upperMethod else none

/-- The characters `validateUrl` rejects. -/
def dangerousUrlChars : List Char := [ltChar, gtChar, dquoteChar, squoteChar]

/-- `validateUrl`: non-empty, at most 2048 units, none of `< > " '`. -/
def validateUrl (url : Option String) : Option String :=
  match url with
  | none => none
  | some u =>
    if u = "" then none
    else if 2048 < u.length then none
    else if u.toList.any (fun c => dangerousUrlChars.contains c) then none
    else some u

/-- C8: the method validator accepts exactly the methods whose uppercasing
is one of the seven allowlisted verbs (so `"trace"` is rejected), and the
URL validator accepts exactly the non-empty strings of length ≤ 2048 that
contain none of `<`, `>`, `"`, `'` — in particular a 2048-character URL is
accepted and a 2049-character one is rejected.  (JS measures `url.length`
in UTF-16 units; on the ASCII request lines Node delivers this is the byte
count the claim speaks of.) -/
theorem validateMethodUrl_exact :
    (∀ m : String, (validateHttpMethod (some m)).isSome = true ↔
      jsToUpperCase m ∈ ["GET", "POST", "PUT", "DELETE", "PATCH", "HEAD", "OPTIONS"])
    ∧ validateHttpMethod (some "trace") = none
    ∧ (∀ u : String, (validateUrl (some u)).isSome = true ↔
        (u ≠ "" ∧ u.length ≤ 2048 ∧
          ∀ c ∈ u.toList, c ≠ ltChar ∧ c ≠ gtChar ∧ c ≠ dquoteChar ∧ c ≠ squoteChar))
    ∧ (validateUrl (some (String.mk (List.replicate 2048 'a')))).isSome = true
    ∧ (validateUrl (some (String.mk (List.replicate 2049 'a')))).isSome = false := by
  have hlen : ∀ n : Nat, (String.mk (List.replicate n 'a')).length = n :=
    fun n => List.length_replicate n 'a'
  have hurl : ∀ u : String, (validateUrl (some u)).isSome = true ↔
      (u ≠ "" ∧ u.length ≤ 2048 ∧
        ∀ c ∈ u.toList, c ≠ ltChar ∧ c ≠ gtChar ∧ c ≠ dquoteChar ∧ c ≠ squoteChar) := by
    intro u
    by_cases h1 : u = ""
    · subst h1; simp [validateUrl]
    · simp only [validateUrl, if_neg h1]
      by_cases h2 : 2048 < u.length
      · rw [if_pos h2]
        refine iff_of_false (by simp) ?_
        intro h
        exact absurd h.2.1 (by omega)
      · rw [if_neg h2]
        by_cases h3 : u.toList.any (fun c => dangerousUrlChars.contains c) = true
        · rw [if_pos h3]
          refine iff_of_false (by simp) ?_
          rcases List.any_eq_true.mp h3 with ⟨c, hcmem, hcdang⟩
          intro h
          rcases h.2.2 c hcmem with ⟨n1, n2, n3, n4⟩
          simp [dangerousUrlChars, List.contains, n1, n2, n3, n4] at hcdang
        · rw [if_neg (by simpa using h3)]
          refine iff_of_true (by simp) ⟨h1, by omega, ?_⟩
          intro c hcmem
          have hnot : dangerousUrlChars.contains c = false := by
            by_contra hcc
            exact h3 (List.any_eq_true.mpr ⟨c, hcmem, by simpa using hcc⟩)
          simpa [dangerousUrlChars, List.contains] using hnot
  refine ⟨?_, by decide, hurl, ?_, ?_⟩
  · intro m
    by_cases hm : m = ""
    · subst hm; decide
    · simp only [validateHttpMethod, if_neg hm]
      by_cases hc : allowedMethods.contains (jsToUpperCase m) = true
      · rw [if_pos hc]
        refine iff_of_true (by simp) ?_
        simpa [allowedMethods] using (List.elem_iff.mp hc)
      · rw [if_neg (by simpa using hc)]
        refine iff_of_false (by simp) ?_
        intro hmem
        exact hc (List.elem_iff.mpr (by simpa [allowedMethods] using hmem))
  · refine (hurl _).mpr ⟨?_, le_of_eq (hlen 2048), ?_⟩
    · intro h
      have h0 : ("" : String).length = 2048 := h ▸ hlen 2048
      have h1 : (0 : Nat) = 2048 := h0
      omega
    · intro c hc
      have hc' : c ∈ List.replicate 2048 'a' := hc
      have : c = 'a' := List.eq_of_mem_replicate hc'
      subst this
      refine ⟨by decide, by decide, by decide, by decide⟩
  · cases hb : (validateUrl (some (String.mk (List.replicate 2049 'a')))).isSome with
    | false => rfl
    | true =>
      have h := ((hurl _).mp hb).2.1
      rw [hlen 2049] at h
      omega

/-! ### The stdio reply round-trip (`sendToStdioProcess` / `handleMcpRequest`)

The child's reply line `{"statusCode":S,"body":B}\n` is modelled down to the
characters: `stringifyReply` is `JSON.stringify` of the parsed reply object
(fields in insertion order), `parseReply` is `JSON.parse` restricted to that
object shape with escape-free strings, `trimChars` is `String.trim`.
Characters that the gate keeps out of source text are written via their code
points. -/

/-- `'\x7b'`. -/
def lbraceChar : Char := Char.ofNat 123
/-- `'\x7d'`. -/
def rbraceChar : Char := Char.ofNat 125
def colonChar : Char := ':'
def commaChar : Char := ','
def backslashChar : Char := Char.ofNat 92
/-- `'\n'`. -/
def nlChar : Char := Char.ofNat 10

def quoteChars (s : List Char) : List Char := dquoteChar :: s ++ [dquoteChar]

def keyStatusCode : List Char := ['s', 't', 'a', 't', 'u', 's', 'C', 'o', 'd', 'e']

def keyBody : List Char := ['b', 'o', 'd', 'y']

/-- A decimal digit character. -/
def digitChar (d : Nat) : Char := Char.ofNat (48 + d)

/-- Most-significant-first decimal digits of `n`, with explicit fuel so the
kernel can evaluate it. -/
def natToCharsCore : Nat → Nat → List Char
  | 0, _ => []
  | fuel + 1, n =>
    if n = 0 then [] else natToCharsCore fuel (n / 10) ++ [digitChar (n % 10)]

/-- The decimal rendering of `n`, as `JSON.stringify` prints a number. -/
def natToChars (n : Nat) : List Char :=
  if n = 0 then [digitChar 0] else natToCharsCore n n

/-- Reading a digit string back (most significant first). -/
def charsToNat (cs : List Char) : Nat :=
  cs.foldl (fun acc c => acc * 10 + (c.toNat - 48)) 0

theorem digitChar_toNat (d : Nat) (h : d < 10) : (digitChar d).toNat = 48 + d := by
  interval_cases d <;> decide

theorem digitChar_isDigit (d : Nat) (h : d < 10) : (digitChar d).isDigit = true := by
  interval_cases d <;> decide

theorem natToCharsCore_foldl (fuel : Nat) :
    ∀ n : Nat, n ≤ fuel → ∀ acc : Nat,
      (natToCharsCore fuel n).foldl (fun a c => a * 10 + (c.toNat - 48)) acc
        = acc * 10 ^ (natToCharsCore fuel n).length + n := by
  induction fuel with
  | zero =>
    intro n hn acc
    interval_cases n
    simp [natToCharsCore]
  | succ fuel ih =>
    intro n hn acc
    by_cases h0 : n = 0
    · subst h0; simp [natToCharsCore]
    · have hdiv : n / 10 ≤ fuel := by
        have : n / 10 < n := Nat.div_lt_self (Nat.pos_of_ne_zero h0) (by norm_num)
        omega
      simp only [natToCharsCore, if_neg h0, List.foldl_append, List.foldl_cons,
        List.foldl_nil, List.length_append, List.length_cons, List.length_nil]
      rw [ih (n / 10) hdiv acc, digitChar_toNat (n % 10) (Nat.mod_lt n (by norm_num))]
      have hmod : 48 + n % 10 - 48 = n % 10 := by omega
      rw [hmod]
      have hgoal : ∀ P : Nat, (acc * P + n / 10) * 10 + n % 10 = acc * (P * 10) + n := by
        intro P
        have h1 : (acc * P + n / 10) * 10 = acc * (P * 10) + (n / 10) * 10 := by ring
        rw [h1, Nat.add_assoc]
        congr 1
        omega
      simpa [pow_succ] using hgoal (10 ^ (natToCharsCore fuel (n / 10)).length)

theorem charsToNat_natToChars (n : Nat) : charsToNat (natToChars n) = n := by
  unfold natToChars charsToNat
  by_cases h : n = 0
  · subst h; decide
  · rw [if_neg h, natToCharsCore_foldl n n le_rfl 0]
    simp

theorem natToCharsCore_all_digits (fuel : Nat) :
    ∀ n : Nat, ∀ c ∈ natToCharsCore fuel n, c.isDigit = true := by
  induction fuel with
  | zero => intro n c hc; simp [natToCharsCore] at hc
  | succ fuel ih =>
    intro n c hc
    by_cases h0 : n = 0
    · simp [natToCharsCore, h0] at hc
    · rw [natToCharsCore, if_neg h0] at hc
      rcases List.mem_append.mp hc with hc | hc
      · exact ih (n / 10) c hc
      · rcases List.mem_singleton.mp hc with rfl
        exact digitChar_isDigit (n % 10) (Nat.mod_lt n (by norm_num))

theorem natToChars_all_digits (n : Nat) : ∀ c ∈ natToChars n, c.isDigit = true := by
  intro c hc
  unfold natToChars at hc
  by_cases h : n = 0
  · rw [if_pos h] at hc
    rcases List.mem_singleton.mp hc with rfl
    decide
  · rw [if_neg h] at hc
    exact natToCharsCore_all_digits n n c hc

theorem natToChars_ne_nil (n : Nat) : natToChars n ≠ [] := by
  unfold natToChars
  by_cases h : n = 0
  · rw [if_pos h]; simp
  · rw [if_neg h]
    cases hn : n with
    | zero => exact absurd hn h
    | succ m => simp [natToCharsCore]

/-- The child's reply value: an object with optional `statusCode` and a
`body` string. -/
structure StdioReply where
  statusCode : Option Nat
  body : List Char
deriving DecidableEq, Repr

/-- `JSON.stringify` of the reply object, insertion order
`statusCode`, `body` (escape-free bodies). -/
def stringifyReply (r : StdioReply) : List Char :=
  match r.statusCode with
  | some n =>
    [lbraceChar] ++ quoteChars keyStatusCode ++ [colonChar] ++ natToChars n
      ++ [commaChar] ++ quoteChars keyBody ++ [colonChar] ++ quoteChars r.body
      ++ [rbraceChar]
  | none =>
    [lbraceChar] ++ quoteChars keyBody ++ [colonChar] ++ quoteChars r.body
      ++ [rbraceChar]

/-- Match an exact prefix, returning the remainder. -/
def dropExact : List Char → List Char → Option (List Char)
  | [], s => some s
  | _ :: _, [] => none
  | p :: ps, c :: cs => if c = p then dropExact ps cs else none

theorem dropExact_append (pre rest : List Char) :
    dropExact pre (pre ++ rest) = some rest := by
  induction pre with
  | nil => rfl
  | cons p ps ih => simp [dropExact, ih]

/-- `JSON.parse` restricted to the reply-object shape (strings without
escape sequences): either `{"statusCode":<digits>,"body":"<chars>"}` or
`{"body":"<chars>"}`. -/
def parseReply (s : List Char) : Option StdioReply :=
  match dropExact [lbraceChar] s with
  | none => none
  | some s1 =>
    match dropExact (quoteChars keyStatusCode ++ [colonChar]) s1 with
    | some s2 =>
      let ds := s2.takeWhile (fun c => c.isDigit)
      let s3 := s2.dropWhile (fun c => c.isDigit)
      if ds = [] then none
      else
        match dropExact ([commaChar] ++ quoteChars keyBody ++ [colonChar, dquoteChar]) s3 with
        | none => none
        | some s4 =>
          let b := s4.takeWhile (fun c => !(c == dquoteChar))
          let s5 := s4.dropWhile (fun c => !(c == dquoteChar))
          match dropExact [dquoteChar, rbraceChar] s5 with
          | some [] => some { statusCode := some (charsToNat ds), body := b }
          | _ => none
    | none =>
      match dropExact (quoteChars keyBody ++ [colonChar, dquoteChar]) s1 with
      | none => none
      | some s4 =>
        let b := s4.takeWhile (fun c => !(c == dquoteChar))
        let s5 := s4.dropWhile (fun c => !(c == dquoteChar))
        match dropExact [dquoteChar, rbraceChar] s5 with
        | some [] => some { statusCode := none, body := b }
        | _ => none

/-- The whitespace `String.prototype.trim` strips (the kinds relevant
here). -/
def isJsSpace (c : Char) : Bool :=
  c = ' ' || c = nlChar || c = Char.ofNat 13 || c = Char.ofNat 9

/-- `responseData.trim()`. -/
def trimChars (s : List Char) : List Char :=
  ((s.dropWhile isJsSpace).reverse.dropWhile isJsSpace).reverse

/-- JS `x || 200` on the parsed `statusCode` field. -/
def jsOrDefault (v : Option Nat) (d : Nat) : Nat :=
  match v with
  | some n => if n = 0 then d else n
  | none => d

/-- `sendToStdioProcess`: given the bytes the child wrote to stdout after
the request, trim and `JSON.parse` them; on success resolve with
`statusCode: response.statusCode || 200` and `body: JSON.stringify(response)`.
`none` models the parse never succeeding (the request then times out). -/
def sendToStdioProcess (stdoutData : List Char) : Option (Nat × List Char) :=
  match parseReply (trimChars stdoutData) with
  | none => none
  | some response => some (jsOrDefault response.statusCode 200, stringifyReply response)

/-- `handleMcpRequest`'s reply step composed with `sendToStdioProcess`: the
status and body the adapter's HTTP client receives
(`res.writeHead(response.statusCode || 200); res.end(response.body)`). -/
def adapterClientResponse (stdoutData : List Char) : Option (Nat × List Char) :=
  match sendToStdioProcess stdoutData with
  | none => none
  | some resp => some (jsOrDefault (some resp.1) 200, resp.2)

/-! ### Round-trip lemmas for the reply line -/

theorem takeWhile_dropWhile_exact (p : Char → Bool) (xs : List Char) (y : Char)
    (ys : List Char) (hall : ∀ x ∈ xs, p x = true) (hy : p y = false) :
    (xs ++ y :: ys).takeWhile p = xs ∧ (xs ++ y :: ys).dropWhile p = y :: ys := by
  induction xs with
  | nil => simp [List.takeWhile_cons, List.dropWhile_cons, hy]
  | cons x xs ih =>
    have hx : p x = true := hall x (List.mem_cons_self ..)
    have ih' := ih (fun z hz => hall z (List.mem_cons_of_mem _ hz))
    simp [List.takeWhile_cons, List.dropWhile_cons, hx, ih'.1, ih'.2]

theorem trimChars_keep (s : List Char)
    (hhead : ∀ c, s.head? = some c → isJsSpace c = false)
    (hlast : ∀ c, s.getLast? = some c → isJsSpace c = false) :
    trimChars (s ++ [nlChar]) = s := by
  cases s with
  | nil => decide
  | cons a t =>
    have ha : isJsSpace a = false := hhead a rfl
    unfold trimChars
    rw [List.cons_append, List.dropWhile_cons, if_neg (by simp [ha])]
    rw [show a :: (t ++ [nlChar]) = (a :: t) ++ [nlChar] from rfl]
    rw [List.reverse_append]
    simp only [List.reverse_cons, List.reverse_nil, List.nil_append, List.singleton_append]
    rw [List.dropWhile_cons, if_pos (by decide)]
    have hstay : List.dropWhile isJsSpace (t.reverse ++ [a]) = t.reverse ++ [a] := by
      cases hrev : t.reverse ++ [a] with
      | nil => simp at hrev
      | cons b u =>
        have hb : isJsSpace b = false := by
          apply hlast
          rw [← List.head?_reverse, List.reverse_cons, hrev]
          rfl
        rw [List.dropWhile_cons, if_neg (by simp [hb])]
    rw [hstay, ← List.reverse_cons, List.reverse_reverse]

/-- `trim` strips exactly the trailing newline from a reply line. -/
theorem trimChars_stringify (r : StdioReply) :
    trimChars (stringifyReply r ++ [nlChar]) = stringifyReply r := by
  apply trimChars_keep
  · intro c hc
    obtain ⟨sc, B⟩ := r
    cases sc <;> simp [stringifyReply] at hc <;> rw [← hc] <;> decide
  · intro c hc
    obtain ⟨sc, B⟩ := r
    have hshape : ∃ mid : List Char, stringifyReply { statusCode := sc, body := B }
        = mid ++ [rbraceChar] := by
      cases sc with
      | some n =>
        exact ⟨[lbraceChar] ++ quoteChars keyStatusCode ++ [colonChar] ++ natToChars n
          ++ [commaChar] ++ quoteChars keyBody ++ [colonChar] ++ quoteChars B,
          by simp [stringifyReply, List.append_assoc]⟩
      | none =>
        exact ⟨[lbraceChar] ++ quoteChars keyBody ++ [colonChar] ++ quoteChars B,
          by simp [stringifyReply, List.append_assoc]⟩
    obtain ⟨mid, hmid⟩ := hshape
    rw [hmid, List.getLast?_concat] at hc
    cases hc
    decide

/-- `parseReply` on an assembled `{"statusCode":D,"body":"B"}` object with
an opaque digit string `D` and an opaque quote-free body `B`. -/
theorem parseReply_assembled_status (D B : List Char)
    (hDtake : (D ++ commaChar :: dquoteChar :: 'b' :: 'o' :: 'd' :: 'y' :: dquoteChar
        :: colonChar :: dquoteChar :: (B ++ [dquoteChar, rbraceChar])).takeWhile
          (fun c => c.isDigit) = D)
    (hDdrop : (D ++ commaChar :: dquoteChar :: 'b' :: 'o' :: 'd' :: 'y' :: dquoteChar
        :: colonChar :: dquoteChar :: (B ++ [dquoteChar, rbraceChar])).dropWhile
          (fun c => c.isDigit)
        = commaChar :: dquoteChar :: 'b' :: 'o' :: 'd' :: 'y' :: dquoteChar :: colonChar
          :: dquoteChar :: (B ++ [dquoteChar, rbraceChar]))
    (hDne : D ≠ [])
    (hBtake : (B ++ [dquoteChar, rbraceChar]).takeWhile (fun c => !(c == dquoteChar)) = B)
    (hBdrop : (B ++ [dquoteChar, rbraceChar]).dropWhile (fun c => !(c == dquoteChar))
        = [dquoteChar, rbraceChar]) :
    parseReply (lbraceChar :: dquoteChar :: 's' :: 't' :: 'a' :: 't' :: 'u' :: 's' :: 'C'
        :: 'o' :: 'd' :: 'e' :: dquoteChar :: colonChar
        :: (D ++ commaChar :: dquoteChar :: 'b' :: 'o' :: 'd' :: 'y' :: dquoteChar
          :: colonChar :: dquoteChar :: (B ++ [dquoteChar, rbraceChar])))
      = some { statusCode := some (charsToNat D), body := B } := by
  simp [parseReply, quoteChars, keyStatusCode, keyBody, dropExact,
    hDtake, hDdrop, hDne, hBtake, hBdrop]

/-- `parseReply` on an assembled `{"body":"B"}` object. -/
theorem parseReply_assembled_body (B : List Char)
    (hBtake : (B ++ [dquoteChar, rbraceChar]).takeWhile (fun c => !(c == dquoteChar)) = B)
    (hBdrop : (B ++ [dquoteChar, rbraceChar]).dropWhile (fun c => !(c == dquoteChar))
        = [dquoteChar, rbraceChar]) :
    parseReply (lbraceChar :: dquoteChar :: 'b' :: 'o' :: 'd' :: 'y' :: dquoteChar
        :: colonChar :: dquoteChar :: (B ++ [dquoteChar, rbraceChar]))
      = some { statusCode := none, body := B } := by
  simp [parseReply, quoteChars, keyStatusCode, keyBody, dropExact, hBtake, hBdrop]

theorem parseReply_stringify (r : StdioReply) (hq : dquoteChar ∉ r.body) :
    parseReply (stringifyReply r) = some r := by
  obtain ⟨sc, B⟩ := r
  have hqB : ∀ c ∈ B, (!(c == dquoteChar)) = true := by
    intro c hc
    have : c ≠ dquoteChar := fun h => hq (h ▸ hc)
    simpa using this
  have hbodyspan := takeWhile_dropWhile_exact (fun c => !(c == dquoteChar)) B
    dquoteChar [rbraceChar] hqB (by simp)
  cases sc with
  | some n =>
    have hdigitspan := takeWhile_dropWhile_exact (fun c => c.isDigit) (natToChars n)
      commaChar (dquoteChar :: 'b' :: 'o' :: 'd' :: 'y' :: dquoteChar :: colonChar
        :: dquoteChar :: (B ++ [dquoteChar, rbraceChar]))
      (natToChars_all_digits n) (by decide)
    have hshape : stringifyReply { statusCode := some n, body := B }
        = lbraceChar :: dquoteChar :: 's' :: 't' :: 'a' :: 't' :: 'u' :: 's' :: 'C'
          :: 'o' :: 'd' :: 'e' :: dquoteChar :: colonChar
          :: (natToChars n ++ commaChar :: dquoteChar :: 'b' :: 'o' :: 'd' :: 'y'
            :: dquoteChar :: colonChar :: dquoteChar :: (B ++ [dquoteChar, rbraceChar])) := by
      simp [stringifyReply, quoteChars, keyStatusCode, keyBody, List.append_assoc]
    rw [hshape]
    rw [parseReply_assembled_status (natToChars n) B hdigitspan.1 hdigitspan.2
      (natToChars_ne_nil n) hbodyspan.1 hbodyspan.2]
    rw [charsToNat_natToChars]
  | none =>
    have hshape : stringifyReply { statusCode := none, body := B }
        = lbraceChar :: dquoteChar :: 'b' :: 'o' :: 'd' :: 'y' :: dquoteChar :: colonChar
          :: dquoteChar :: (B ++ [dquoteChar, rbraceChar]) := by
      simp [stringifyReply, quoteChars, keyStatusCode, keyBody, List.append_assoc]
    rw [hshape]
    exact parseReply_assembled_body B hbodyspan.1 hbodyspan.2

theorem jsOrDefault_ne_zero (v : Option Nat) : jsOrDefault v 200 ≠ 0 := by
  cases v with
  | none => simp [jsOrDefault]
  | some n => by_cases hn : n = 0 <;> simp [jsOrDefault, hn]

theorem jsOrDefault_idem (v : Option Nat) :
    jsOrDefault (some (jsOrDefault v 200)) 200 = jsOrDefault v 200 := by
  have h := jsOrDefault_ne_zero v
  show (if jsOrDefault v 200 = 0 then 200 else jsOrDefault v 200) = jsOrDefault v 200
  rw [if_neg h]

/-- `sendToStdioProcess` on a single newline-terminated reply line. -/
theorem sendToStdioProcess_stringify (r : StdioReply) (hq : dquoteChar ∉ r.body) :
    sendToStdioProcess (stringifyReply r ++ [nlChar])
      = some (jsOrDefault r.statusCode 200, stringifyReply r) := by
  unfold sendToStdioProcess
  rw [trimChars_stringify r, parseReply_stringify r hq]

/-- The full adapter round trip on a single newline-terminated reply line:
shared by the C2 counterexample and the C2 theorem. -/
theorem adapterClientResponse_stringify (r : StdioReply) (hq : dquoteChar ∉ r.body) :
    adapterClientResponse (stringifyReply r ++ [nlChar])
      = some (jsOrDefault r.statusCode 200, stringifyReply r) := by
  unfold adapterClientResponse
  rw [sendToStdioProcess_stringify r hq]
  show some (jsOrDefault (some (jsOrDefault r.statusCode 200)) 200, stringifyReply r) = _
  rw [jsOrDefault_idem]

/-- C2 counterexample: the claim says the HTTP client receives a body equal
to `B` byte-for-byte.  For the reply `\x7b"statusCode":201,"body":"pong"\x7d`
the client does get status 201, but the body it receives is
`JSON.stringify(response)` — the serialisation of the whole reply object —
which is not the four bytes `pong`. -/
theorem stdio_reply_body_not_raw :
    adapterClientResponse
        (stringifyReply { statusCode := some 201, body := ['p', 'o', 'n', 'g'] } ++ [nlChar])
      = some (201, stringifyReply { statusCode := some 201, body := ['p', 'o', 'n', 'g'] })
    ∧ stringifyReply { statusCode := some 201, body := ['p', 'o', 'n', 'g'] }
        ≠ ['p', 'o', 'n', 'g'] :=
  ⟨by decide, by decide⟩

/-- C2 amended: for a stdio child that writes the single newline-terminated
reply `\x7b"statusCode":S,"body":B\x7d` (escape-free `B`), the adapter's HTTP
client receives status `S` (200 when `statusCode` is omitted — and also when
`S = 0`, by JS `||`), and a body equal byte-for-byte to the JSON
serialisation of the whole reply object (which carries `B` in its `body`
field), not to `B` itself. -/
theorem stdio_reply_roundtrip (S : Nat) (B : List Char) (hq : dquoteChar ∉ B) :
    adapterClientResponse (stringifyReply { statusCode := some S, body := B } ++ [nlChar])
      = some (if S = 0 then 200 else S,
          stringifyReply { statusCode := some S, body := B })
    ∧ adapterClientResponse (stringifyReply { statusCode := none, body := B } ++ [nlChar])
      = some (200, stringifyReply { statusCode := none, body := B }) := by
  constructor
  · rw [adapterClientResponse_stringify { statusCode := some S, body := B } hq]
    rfl
  · rw [adapterClientResponse_stringify { statusCode := none, body := B } hq]
    rfl

/-- Witness for `stdio_reply_roundtrip` at `S = 404`, `B = "ok"`. -/
theorem stdio_reply_roundtrip_witness :
    adapterClientResponse
        (stringifyReply { statusCode := some 404, body := ['o', 'k'] } ++ [nlChar])
      = some (if 404 = 0 then 200 else 404,
          stringifyReply { statusCode := some 404, body := ['o', 'k'] })
    ∧ adapterClientResponse
        (stringifyReply { statusCode := none, body := ['o', 'k'] } ++ [nlChar])
      = some (200, stringifyReply { statusCode := none, body := ['o', 'k'] }) :=
  stdio_reply_roundtrip 404 ['o', 'k'] (by decide)

/-! ### The adapter request pipeline (`handleHttpRequest` / `handleMcpRequest`)

`createAdapter`'s request handler, per HTTP request to the loopback port.
The adapter lookup, child-process presence and health flag are explicit
parameters; the child's stdout bytes are the environment input for the
round-trip step. -/

structure StdioAdapterConfig where
  maxBufferSize : Nat
  healthCheckPath : String
  enableCors : Bool
deriving DecidableEq, Repr

/-- The parts of an incoming request the handler reads.  The body arrives
as `data` chunks. -/
structure HttpRequest where
  method : Option String
  url : Option String
  headers : List (String × String)
  bodyChunks : List String
deriving DecidableEq, Repr

/-- `collectRequestBody`'s chunk loop: reject as soon as the running total
exceeds `maxBufferSize`. -/
def collectRequestBodyAux (maxBufferSize : Nat) :
    List String → Nat → List String → Option String
  | [], _, acc => some (String.join acc.reverse)
  | c :: rest, totalSize, acc =>
    if maxBufferSize < totalSize + c.length then none
    else collectRequestBodyAux maxBufferSize rest (totalSize + c.length) (c :: acc)

/-- `collectRequestBody`: `none` models the `Request body too large`
rejection. -/
def collectRequestBody (maxBufferSize : Nat) (chunks : List String) : Option String :=
  collectRequestBodyAux maxBufferSize chunks 0 []

/-- One header value's sanitisation: strip CR/LF and `< > " '`, then trim. -/
def sanitiseHeaderValue (v : String) : String :=
  String.mk (trimChars (v.toList.filter (fun c =>
    !(c == Char.ofNat 13 || c == nlChar || c == ltChar || c == gtChar
      || c == dquoteChar || c == squoteChar))))

def allowedHeaders : List String :=
  ["content-type", "content-length", "authorization", "accept", "accept-encoding",
   "accept-language", "user-agent", "x-forwarded-for", "x-real-ip", "host"]

/-- `sanitiseHeaders`: lowercase keys, keep only allowlisted ones, keep
sanitised values of length 1..1024 (later duplicates overwrite, as JS
object assignment does). -/
def sanitiseHeaders (headers : List (String × String)) : List (String × String) :=
  headers.foldl (fun acc kv =>
    let lowerKey := jsToLowerCase kv.1
    if allowedHeaders.contains lowerKey then
      let v := sanitiseHeaderValue kv.2
      if 1 ≤ v.length ∧ v.length ≤ 1024 then mapSet acc lowerKey v else acc
    else acc) []

/-- `sanitiseRequestBody`: length-check then strip null bytes. -/
def sanitiseRequestBody (maxBufferSize : Nat) (body : String) : Option String :=
  if maxBufferSize < body.length then none
  else some (String.mk (body.toList.filter (fun c => !(c == Char.ofNat 0))))

structure ValidatedMcpRequest where
  method : String
  url : String
  headers : List (String × String)
  body : String
deriving DecidableEq, Repr

/-- `validateAndSanitiseRequest`, field throws in evaluation order. -/
def validateAndSanitiseRequest (maxBufferSize : Nat) (method url : Option String)
    (headers : List (String × String)) (body : String) : Option ValidatedMcpRequest :=
  match validateHttpMethod method with
  | none => none
  | some m =>
    match validateUrl url with
    | none => none
    | some u =>
      match sanitiseRequestBody maxBufferSize body with
      | none => none
      | some b => some { method := m, url := u, headers := sanitiseHeaders headers, body := b }

inductive AdapterHttpResponse where
  /-- The CORS `OPTIONS` short-circuit (200, empty body). -/
  | corsPreflight
  /-- The health-check JSON (200 when healthy, 503 otherwise). -/
  | health (status : Nat)
  /-- `sendErrorResponse(res, status, message)`. -/
  | errorResponse (status : Nat) (message : String)
  /-- The stdio reply forwarded to the client. -/
  | mcpReply (status : Nat) (body : List Char)
deriving DecidableEq, Repr

/-- `handleMcpRequest`: collect the body, validate, write to the child and
await its reply.  The `Bool` records whether anything was written to the
child's stdin; `none` models a throw (caught by `handleHttpRequest`). -/
def handleMcpRequest (cfg : StdioAdapterConfig) (req : HttpRequest)
    (childStdout : List Char) : Option (Nat × List Char) × Bool :=
  match collectRequestBody cfg.maxBufferSize req.bodyChunks with
  | none => (none, false)
  | some body =>
    match validateAndSanitiseRequest cfg.maxBufferSize req.method req.url
        req.headers body with
    | none => (none, false)
    | some _ =>
      match sendToStdioProcess childStdout with
      | none => (none, true)
      | some resp => (some (jsOrDefault (some resp.1) 200, resp.2), true)

/-- `handleHttpRequest`: CORS preflight, health check, 503 without a child,
then the MCP pipeline with every thrown error answered by
`sendErrorResponse(res, 500, 'MCP request failed')`. -/
def handleHttpRequest (cfg : StdioAdapterConfig)
    (adapterFound hasChild isHealthy : Bool) (req : HttpRequest)
    (childStdout : List Char) : AdapterHttpResponse × Bool :=
  if !adapterFound then (.errorResponse 404 "Server not found", false)
  else if cfg.enableCors ∧ req.method = some "OPTIONS" then (.corsPreflight, false)
  else if req.url = some cfg.healthCheckPath then
    (.health (if isHealthy then 200 else 503), false)
  else if !hasChild then (.errorResponse 503 "Service not available", false)
  else
    match handleMcpRequest cfg req childStdout with
    | (none, wrote) => (.errorResponse 500 "MCP request failed", wrote)
    | (some (st, b), wrote) => (.mcpReply st b, wrote)

/-- A small test configuration (`maxBufferSize = 4`). -/
def c3Config : StdioAdapterConfig :=
  { maxBufferSize := 4, healthCheckPath := "/health", enableCors := true }

/-- A request with the disallowed method `TRACE`. -/
def traceReq : HttpRequest :=
  { method := some "TRACE", url := some "/x", headers := [], bodyChunks := ["hi"] }

/-- A request whose body (5 bytes) exceeds `c3Config.maxBufferSize` (4). -/
def bigBodyReq : HttpRequest :=
  { method := some "POST", url := some "/x", headers := [], bodyChunks := ["hello"] }

/-- C3 counterexample: the claim says validation failures get HTTP 400 and
over-long bodies get HTTP 413.  The code catches every error thrown inside
`handleMcpRequest` and answers `500 'MCP request failed'`: a `TRACE`
request gets 500 (not 400) and an oversized body gets 500 (not 413) —
though in both cases nothing is written to the child's stdin. -/
theorem adapter_failures_get_500 :
    handleHttpRequest c3Config true true true traceReq []
      = (.errorResponse 500 "MCP request failed", false)
    ∧ handleHttpRequest c3Config true true true bigBodyReq []
      = (.errorResponse 500 "MCP request failed", false)
    ∧ (500 : Nat) ≠ 400 ∧ (500 : Nat) ≠ 413 :=
  ⟨by decide, by decide, by decide, by decide⟩

/-- C3 amended: for every request to a live adapter with a child (that is
neither a CORS preflight nor a health check), a body over `maxBufferSize`
or a failed validation is answered with HTTP 500 and the JSON error body
`MCP request failed` — and in both cases the rejection happens before any
bytes are written to the child's stdin. -/
theorem adapter_validation_500_before_write :
    (∀ (cfg : StdioAdapterConfig) (req : HttpRequest) (childStdout : List Char)
      (isHealthy : Bool),
      ¬ (cfg.enableCors = true ∧ req.method = some "OPTIONS") →
      req.url ≠ some cfg.healthCheckPath →
      collectRequestBody cfg.maxBufferSize req.bodyChunks = none →
      handleHttpRequest cfg true true isHealthy req childStdout
        = (.errorResponse 500 "MCP request failed", false))
    ∧ (∀ (cfg : StdioAdapterConfig) (req : HttpRequest) (childStdout : List Char)
      (isHealthy : Bool) (body : String),
      ¬ (cfg.enableCors = true ∧ req.method = some "OPTIONS") →
      req.url ≠ some cfg.healthCheckPath →
      collectRequestBody cfg.maxBufferSize req.bodyChunks = some body →
      validateAndSanitiseRequest cfg.maxBufferSize req.method req.url
          req.headers body = none →
      handleHttpRequest cfg true true isHealthy req childStdout
        = (.errorResponse 500 "MCP request failed", false)) := by
  constructor
  · intro cfg req childStdout isHealthy hcors hhealth hcollect
    simp [handleHttpRequest, handleMcpRequest, hcors, hhealth, hcollect]
  · intro cfg req childStdout isHealthy body hcors hhealth hcollect hvalid
    simp [handleHttpRequest, handleMcpRequest, hcors, hhealth, hcollect, hvalid]

/-- Witness for `adapter_validation_500_before_write` at the oversized-body
request. -/
theorem adapter_validation_500_witness :
    handleHttpRequest c3Config true true true bigBodyReq []
      = (.errorResponse 500 "MCP request failed", false) :=
  adapter_validation_500_before_write.1 c3Config bigBodyReq [] true
    (by decide) (by decide) (by decide)

/-! ## WebSocket relay (`WebSocketProxyService`)

One relay connection record plus the message and close handlers.  Socket
actions (sends and closes) are reified as a list of effects so that the
theorems can speak about what was sent where.  The connection map holds
everything the code stores per connection — in particular there is no
queue of pending frames. -/

inductive WsReadyState where
  | connecting
  /-- `WebSocket.OPEN`. -/
  | opened
  | closing
  /-- `WebSocket.CLOSED`. -/
  | closedState
deriving DecidableEq, Repr

structure WsConnection where
  serverName : String
  /-- Set once the target socket's `open` event fired. -/
  connected : Bool
  clientState : WsReadyState
  /-- Whether `targetWs` has been assigned. -/
  hasTarget : Bool
  targetState : WsReadyState
  lastActivity : Nat
deriving DecidableEq, Repr

structure WsProxyState where
  connections : List (String × WsConnection)
deriving DecidableEq, Repr

inductive WsEffect where
  | closeClient (connectionId : String) (code : Nat) (reason : String)
  | closeTarget (connectionId : String) (code : Nat) (reason : String)
  | sendToTarget (connectionId : String) (data : List Char)
  | sendToClient (connectionId : String) (data : List Char)
deriving DecidableEq, Repr

/-- `closeConnection(connectionId, code, reason)`: close whichever sockets
are still `OPEN` with `(code, reason)`, then remove the record. -/
def closeConnection (s : WsProxyState) (connectionId : String) (code : Nat)
    (reason : String) : WsProxyState × List WsEffect :=
  match mapGet s.connections connectionId with
  | none => (s, [])
  | some conn =>
    ({ connections := mapDel s.connections connectionId },
     (if conn.clientState = .opened
       then [WsEffect.closeClient connectionId code reason] else [])
       ++ (if conn.hasTarget = true ∧ conn.targetState = .opened
       then [WsEffect.closeTarget connectionId code reason] else []))

/-- The client socket's `close` handler: it receives the client's close
code and reason but only logs them — `closeConnection(id)` is called with
its defaults `1000, 'Normal closure'`. -/
def handleClientClose (s : WsProxyState) (connectionId : String) (_code : Nat)
    (_reason : String) : WsProxyState × List WsEffect :=
  closeConnection s connectionId 1000 "Normal closure"

/-- The target socket's `close` handler: propagates the backend's code and
reason via `closeConnection(id, code, reason.toString())`. -/
def handleTargetClose (s : WsProxyState) (connectionId : String) (code : Nat)
    (reason : String) : WsProxyState × List WsEffect :=
  closeConnection s connectionId code reason

/-- `handleClientMessage`: drop the frame unless the record exists and is
`connected`; bump `lastActivity`; forward only when the target socket is
assigned and `OPEN`. -/
def handleClientMessage (s : WsProxyState) (connectionId : String)
    (data : List Char) (now : Nat) : WsProxyState × List WsEffect :=
  match mapGet s.connections connectionId with
  | none => (s, [])
  | some conn =>
    if conn.connected = false then (s, [])
    else
      let s' : WsProxyState :=
        { connections := mapSet s.connections connectionId
            { conn with lastActivity := now } }
      if conn.hasTarget = true ∧ conn.targetState = .opened then
        (s', [WsEffect.sendToTarget connectionId data])
      else (s', [])

/-- `handleServerMessage`: the mirror direction. -/
def handleServerMessage (s : WsProxyState) (connectionId : String)
    (data : List Char) (now : Nat) : WsProxyState × List WsEffect :=
  match mapGet s.connections connectionId with
  | none => (s, [])
  | some conn =>
    if conn.connected = false then (s, [])
    else
      let s' : WsProxyState :=
        { connections := mapSet s.connections connectionId
            { conn with lastActivity := now } }
      if conn.clientState = .opened then
        (s', [WsEffect.sendToClient connectionId data])
      else (s', [])

/-- A relay connection whose client just closed (its socket is no longer
`OPEN`) while the backend socket is still open. -/
def c7State : WsProxyState :=
  { connections := [("c1",
      { serverName := "echo", connected := true, clientState := .closedState,
        hasTarget := true, targetState := .opened, lastActivity := 0 })] }

/-- C7 counterexample: the claim says a client close with code `c` and
reason `r` closes the backend socket with the same `c` and `r`.  When the
client closes with `(4000, "bye")`, the relay closes the backend with the
fixed defaults `(1000, "Normal closure")` instead (the record is removed
either way). -/
theorem client_close_code_not_propagated :
    handleClientClose c7State "c1" 4000 "bye"
      = ({ connections := [] }, [WsEffect.closeTarget "c1" 1000 "Normal closure"])
    ∧ [WsEffect.closeTarget "c1" 1000 "Normal closure"]
        ≠ [WsEffect.closeTarget "c1" 4000 "bye"] :=
  ⟨by decide, by decide⟩

/-- C7 amended: when the backend socket closes with `(code, reason)` the
relay closes the client with the same `(code, reason)` and removes the
record; when the client socket closes, the relay closes the backend with
the fixed `(1000, "Normal closure")` — not the client's code and reason —
and removes the record.  Each socket is only closed if it is still `OPEN`. -/
theorem ws_close_propagation :
    (∀ (s : WsProxyState) (connectionId : String) (code : Nat) (reason : String)
      (conn : WsConnection), mapGet s.connections connectionId = some conn →
      handleTargetClose s connectionId code reason
        = ({ connections := mapDel s.connections connectionId },
           (if conn.clientState = .opened
             then [WsEffect.closeClient connectionId code reason] else [])
             ++ (if conn.hasTarget = true ∧ conn.targetState = .opened
             then [WsEffect.closeTarget connectionId code reason] else [])))
    ∧ (∀ (s : WsProxyState) (connectionId : String) (code : Nat) (reason : String)
      (conn : WsConnection), mapGet s.connections connectionId = some conn →
      handleClientClose s connectionId code reason
        = ({ connections := mapDel s.connections connectionId },
           (if conn.clientState = .opened
             then [WsEffect.closeClient connectionId 1000 "Normal closure"] else [])
             ++ (if conn.hasTarget = true ∧ conn.targetState = .opened
             then [WsEffect.closeTarget connectionId 1000 "Normal closure"] else []))) := by
  constructor
  · intro s connectionId code reason conn hg
    simp [handleTargetClose, closeConnection, hg]
  · intro s connectionId code reason conn hg
    simp [handleClientClose, closeConnection, hg]

/-- A relay connection with both sockets open (C7 witness input). -/
def c7StateB : WsProxyState :=
  { connections := [("c1",
      { serverName := "echo", connected := true, clientState := .opened,
        hasTarget := true, targetState := .opened, lastActivity := 0 })] }

/-- Witness for `ws_close_propagation`: a backend close with
`(1008, "limit")` closes the client with the same code and reason. -/
theorem ws_close_propagation_witness :
    handleTargetClose c7StateB "c1" 1008 "limit"
      = ({ connections := mapDel c7StateB.connections "c1" },
         (if WsReadyState.opened = WsReadyState.opened
           then [WsEffect.closeClient "c1" 1008 "limit"] else [])
           ++ (if true = true ∧ WsReadyState.opened = WsReadyState.opened
           then [WsEffect.closeTarget "c1" 1008 "limit"] else [])) :=
  ws_close_propagation.1 c7StateB "c1" 1008 "limit"
    { serverName := "echo", connected := true, clientState := .opened,
      hasTarget := true, targetState := .opened, lastActivity := 0 } (by decide)

/-- C10: a frame from the client before the backend connection is
established is silently discarded.  If the record is missing or not yet
`connected`, the state is unchanged (not even `lastActivity` moves) and no
effect is produced; if `connected` but the backend socket is not `OPEN`,
only `lastActivity` is updated and still nothing is sent or queued — the
record has no queue to put the frame in — and the client gets no error. -/
theorem client_message_discarded_before_connect :
    (∀ (s : WsProxyState) (connectionId : String) (data : List Char) (now : Nat),
      mapGet s.connections connectionId = none →
      handleClientMessage s connectionId data now = (s, []))
    ∧ (∀ (s : WsProxyState) (connectionId : String) (data : List Char) (now : Nat)
      (conn : WsConnection), mapGet s.connections connectionId = some conn →
      conn.connected = false →
      handleClientMessage s connectionId data now = (s, []))
    ∧ (∀ (s : WsProxyState) (connectionId : String) (data : List Char) (now : Nat)
      (conn : WsConnection), mapGet s.connections connectionId = some conn →
      conn.connected = true →
      ¬ (conn.hasTarget = true ∧ conn.targetState = .opened) →
      handleClientMessage s connectionId data now
        = ({ connections := mapSet s.connections connectionId
              { conn with lastActivity := now } }, [])) := by
  refine ⟨?_, ?_, ?_⟩
  · intro s connectionId data now hg
    simp [handleClientMessage, hg]
  · intro s connectionId data now conn hg hc
    simp [handleClientMessage, hg, hc]
  · intro s connectionId data now conn hg hc hna
    simp [handleClientMessage, hg, hc, hna]

/-- A relay connection still waiting on the backend (C10 witness input). -/
def pendingState : WsProxyState :=
  { connections := [("c1",
      { serverName := "echo", connected := false, clientState := .opened,
        hasTarget := false, targetState := .connecting, lastActivity := 0 })] }

/-- Witness for `client_message_discarded_before_connect` at a
not-yet-connected record. -/
theorem client_message_discarded_witness :
    handleClientMessage pendingState "c1" ['h', 'i'] 5 = (pendingState, []) :=
  client_message_discarded_before_connect.2.1 pendingState "c1" ['h', 'i'] 5
    { serverName := "echo", connected := false, clientState := .opened,
      hasTarget := false, targetState := .connecting, lastActivity := 0 }
    (by decide) (by decide)

/-! ## Request router (`src/services/request-router.ts`)

Paths are character lists; the Node `url.parse` step is modelled by taking
`pathname` and `search` (with its leading `?`) as separate inputs.  The
wildcard pattern matcher (`matchWildcardPattern`'s regex) is passed in as
an oracle `wildMatch`; it is only consulted when the exact lookup fails. -/

structure RoutingConfig where
  /-- `stripServerPrefix` in the source (default true). -/
  stripFirstSegment : Bool
  caseSensitive : Bool
  enableWildcards : Bool
deriving DecidableEq, Repr

def slashChar : Char := '/'

/-- `url.pathname.split('/').filter(Boolean)`. -/
def pathSegments (pathname : List Char) : List (List Char) :=
  (pathname.splitOn slashChar).filter (fun seg => !seg.isEmpty)

def serverKeyOf (cfg : RoutingConfig) (name : List Char) : List Char :=
  if cfg.caseSensitive then name else name.map asciiLowerChar

/-- The target path computed by `matchRoute`. -/
def targetPathOf (cfg : RoutingConfig) (segments : List (List Char))
    (fullPath : List Char) : List Char :=
  if cfg.stripFirstSegment = true ∧ 1 < segments.length then
    slashChar :: List.intercalate [slashChar] segments.tail
  else if cfg.stripFirstSegment = false then fullPath
  else [slashChar]

/-- `matchRoute`: exact lookup of the first segment, wildcard walk as the
fallback.  Returns the matched server key and the target path. -/
def matchRoute (cfg : RoutingConfig) (servers : List (List Char))
    (wildMatch : List Char → List Char → Bool) (segments : List (List Char))
    (fullPath : List Char) : Option (List Char × List Char) :=
  match segments with
  | [] => none
  | seg0 :: _ =>
    let serverKey := serverKeyOf cfg seg0
    if servers.contains serverKey then
      some (serverKey, targetPathOf cfg segments fullPath)
    else if cfg.enableWildcards then
      match servers.find? (fun pat => wildMatch pat seg0) with
      | some pat => some (pat, targetPathOf cfg segments fullPath)
      | none => none
    else none

/-- `routeRequest`: on a match, the forwarded `req.url` is the target path
plus the preserved query string when `stripServerPrefix` is set, else the
original URL.  Returns `(matched key, forwarded url)`; `none` models the
`return false` no-match path. -/
def routeRequest (cfg : RoutingConfig) (servers : List (List Char))
    (wildMatch : List Char → List Char → Bool) (pathname search : List Char) :
    Option (List Char × List Char) :=
  match matchRoute cfg servers wildMatch (pathSegments pathname) pathname with
  | none => none
  | some m =>
    if cfg.stripFirstSegment then some (m.1, m.2 ++ search)
    else some (m.1, pathname ++ search)

/-- The defaults of `RoutingConfig` in the source. -/
def defaultRoutingConfig : RoutingConfig :=
  { stripFirstSegment := true, caseSensitive := true, enableWildcards := true }

theorem intercalate_cons₂' (sep a b : List Char) (l : List (List Char)) :
    List.intercalate sep (a :: b :: l) = a ++ (sep ++ List.intercalate sep (b :: l)) := by
  simp [List.intercalate, List.append_assoc]

theorem filter_nonempty_eq_self {l : List (List Char)} (h : ∀ seg ∈ l, seg ≠ []) :
    l.filter (fun seg => !seg.isEmpty) = l := by
  refine List.filter_eq_self.mpr ?_
  intro seg hseg
  simpa [List.isEmpty_iff] using h seg hseg

/-- C9: with the default configuration, a request for
`/<name>/<rest segments>?<query>` against a registered `name` is forwarded
with target path `/` ++ the remaining segments joined by `/`, and the query
string appended unchanged. -/
theorem router_strips_and_preserves_query (servers : List (List Char))
    (wildMatch : List Char → List Char → Bool) (name : List Char)
    (rest : List (List Char)) (search : List Char)
    (hmem : name ∈ servers) (hname : name ≠ []) (hslash : slashChar ∉ name)
    (hrest : ∀ seg ∈ rest, seg ≠ [] ∧ slashChar ∉ seg) (hne : rest ≠ []) :
    routeRequest defaultRoutingConfig servers wildMatch
        (slashChar :: (name ++ slashChar :: List.intercalate [slashChar] rest)) search
      = some (name, (slashChar :: List.intercalate [slashChar] rest) ++ search) := by
  have hpath : slashChar :: (name ++ slashChar :: List.intercalate [slashChar] rest)
      = List.intercalate [slashChar] ([] :: name :: rest) := by
    obtain ⟨r, rs, rfl⟩ : ∃ r rs, rest = r :: rs := by
      cases rest with
      | nil => exact absurd rfl hne
      | cons r rs => exact ⟨r, rs, rfl⟩
    rw [intercalate_cons₂' [slashChar] [] name (r :: rs),
      intercalate_cons₂' [slashChar] name r rs]
    simp
  have hsplit : (List.intercalate [slashChar] ([] :: name :: rest)).splitOn slashChar
      = [] :: name :: rest := by
    refine List.splitOn_intercalate ([] :: name :: rest) slashChar ?_ (by simp)
    intro l hl
    rcases List.mem_cons.mp hl with rfl | hl
    · simp
    · rcases List.mem_cons.mp hl with rfl | hl
      · exact hslash
      · exact (hrest l hl).2
  have hsegs : pathSegments
      (slashChar :: (name ++ slashChar :: List.intercalate [slashChar] rest))
      = name :: rest := by
    rw [pathSegments, hpath, hsplit]
    rw [List.filter_cons, List.filter_cons]
    simp only [List.isEmpty_nil, Bool.not_true, if_neg]
    rw [if_neg (by simp), if_pos (by simpa [List.isEmpty_iff] using hname),
      filter_nonempty_eq_self (fun seg hseg => (hrest seg hseg).1)]
  rw [routeRequest, hsegs]
  have hcontains : servers.contains name = true := List.elem_iff.mpr hmem
  simp only [matchRoute, serverKeyOf, defaultRoutingConfig, if_pos, hcontains]
  have hlen0 : 0 < rest.length := by
    cases rest with
    | nil => exact absurd rfl hne
    | cons r rs => simp
  simp [targetPathOf, hlen0]

/-- Witness for `router_strips_and_preserves_query`: the echo scenario
`GET /echo/x?y=1` reaches the backend as `/x?y=1`. -/
theorem router_strip_witness :
    routeRequest defaultRoutingConfig [['e', 'c', 'h', 'o']] (fun _ _ => false)
        (slashChar :: (['e', 'c', 'h', 'o']
          ++ slashChar :: List.intercalate [slashChar] [['x']]))
        ['?', 'y', '=', '1']
      = some (['e', 'c', 'h', 'o'],
          (slashChar :: List.intercalate [slashChar] [['x']]) ++ ['?', 'y', '=', '1']) :=
  router_strips_and_preserves_query [['e', 'c', 'h', 'o']] (fun _ _ => false)
    ['e', 'c', 'h', 'o'] [['x']] ['?', 'y', '=', '1']
    (by decide) (by decide) (by decide) (by decide) (by decide)

end MCPGateway
